import Mathlib

/-!
Verification of the Epos engine (epos.py) tool-call extraction, JSON repair,
tool executor, context-buffer lifecycle and reset behaviour.

Texts are modelled as `List Char` (Python strings are sequences of code
points, as are Lean `String`s; `String.toList` bridges literals).  Python
regular-expression operations from the source are embedded as deterministic
scanners that reproduce the exact leftmost / lazy / greedy semantics of the
fixed patterns appearing in the source.  External collaborators (the HTTP
generation backend and the search CLI) are oracle parameters.  Wall-clock
timestamps, console printing and file logging are outside the model; the
logged event records themselves are modelled as a `LogEvent` list.
-/

set_option maxRecDepth 20000

namespace Epos

/-- Python regex `\s` / `str.strip` whitespace for the characters that can
occur here: ASCII whitespace plus the ideographic and no-break spaces.
(The full Unicode whitespace set is larger; only these occur in the data
handled by the source.) -/
def isPySpace (c : Char) : Bool :=
  c == ' ' || c == '\t' || c == '\n' || c == '\r' ||
  c == '\x0b' || c == '\x0c' || c == '　' || c == ' '

/-- JSON (`json.loads`) insignificant whitespace: exactly space, tab, LF, CR. -/
def isJsonWs (c : Char) : Bool :=
  c == ' ' || c == '\t' || c == '\n' || c == '\r'

/-- Python regex `\w` for the characters that can occur here: ASCII word
characters plus the Japanese letters used by the tool-name alternations
(hiragana, katakana, CJK ideographs).  Quotation brackets 「」『』 and other
punctuation are not word characters. -/
def isWordChar (c : Char) : Bool :=
  (('a' ≤ c && c ≤ 'z') || ('A' ≤ c && c ≤ 'Z') ||
   ('0' ≤ c && c ≤ '9') || c == '_' ||
   ('ぁ'.toNat ≤ c.toNat && c.toNat ≤ 'ゟ'.toNat) ||
   ('゠'.toNat ≤ c.toNat && c.toNat ≤ 'ヿ'.toNat) ||
   ('一'.toNat ≤ c.toNat && c.toNat ≤ '鿿'.toNat))

def isDigitCh (c : Char) : Bool := '0' ≤ c && c ≤ '9'

/-- Does `t` start with the pattern `p`? -/
def startsWithL : List Char → List Char → Bool
  | _, [] => true
  | [], _ :: _ => false
  | c :: ts, p :: ps => c == p && startsWithL ts ps

/-- Does `pat` occur as a contiguous substring of `text`? -/
def containsSub (pat : List Char) : List Char → Bool
  | [] => startsWithL [] pat
  | c :: rest => startsWithL (c :: rest) pat || containsSub pat rest

/-- Split `text` at the first (leftmost) occurrence of `pat`, returning the
part before the occurrence and the part after it. -/
def splitFirst (pat : List Char) : List Char → Option (List Char × List Char)
  | [] => if startsWithL [] pat then some ([], []) else none
  | c :: rest =>
    if startsWithL (c :: rest) pat then some ([], (c :: rest).drop pat.length)
    else
      match splitFirst pat rest with
      | some (b, a) => some (c :: b, a)
      | none => none

/-- Start index of the last occurrence of `pat` in `text` (Python `str.rfind`). -/
def lastOccur (pat : List Char) : List Char → Option Nat
  | [] => if startsWithL [] pat then some 0 else none
  | c :: rest =>
    match lastOccur pat rest with
    | some i => some (i + 1)
    | none => if startsWithL (c :: rest) pat then some 0 else none

/-- Maximal-munch skip of regex whitespace (`\s*` followed by a
non-whitespace literal is deterministic). -/
def skipWs (t : List Char) : List Char := t.dropWhile isPySpace

def skipJWs (t : List Char) : List Char := t.dropWhile isJsonWs

/-- Python `str.strip()`: drop whitespace from both ends. -/
def pyStrip (t : List Char) : List Char :=
  ((t.dropWhile isPySpace).reverse.dropWhile isPySpace).reverse

/-- Python `str.replace(pat, rep)`: leftmost, non-overlapping.  All call
sites use a nonempty `pat`; the fuel is the text length plus one.  -/
def replaceAllF (pat rep : List Char) : Nat → List Char → List Char
  | 0, t => t
  | _, [] => []
  | fuel + 1, c :: rest =>
    if startsWithL (c :: rest) pat then
      rep ++ replaceAllF pat rep fuel ((c :: rest).drop pat.length)
    else c :: replaceAllF pat rep fuel rest

def pyReplace (pat rep t : List Char) : List Char :=
  replaceAllF pat rep (t.length + 1) t

/-- `re.sub(r'\n{3,}', '\n\n', s)`: a maximal run of three or more newline
characters becomes exactly two. -/
def collapseNlF : Nat → List Char → List Char
  | 0, t => t
  | _, [] => []
  | fuel + 1, c :: rest =>
    if c == '\n' then
      let run := (c :: rest).takeWhile (· == '\n')
      if 3 ≤ run.length then
        '\n' :: '\n' :: collapseNlF fuel ((c :: rest).drop run.length)
      else c :: collapseNlF fuel rest
    else c :: collapseNlF fuel rest

def collapseNl (t : List Char) : List Char := collapseNlF (t.length + 1) t

/-!  ## JSON values and strict parsing (`json.loads`)

JSON numbers are modelled as integers; fractional and exponent literals
(and the non-standard `NaN`/`Infinity` that CPython also accepts) are
floating-point values outside this model and make the modelled parse fail.
No claim involves numeric JSON data.  -/

inductive JValue where
  | null : JValue
  | bool : Bool → JValue
  | int : Int → JValue
  | str : List Char → JValue
  | arr : List JValue → JValue
  | obj : List (List Char × JValue) → JValue

/-- CPython `dict` insertion: an existing key keeps its position and gets
the new value, a fresh key is appended.  `json.loads` builds objects this
way, so authored key order is preserved. -/
def dictInsert (kvs : List (List Char × JValue)) (k : List Char) (v : JValue) :
    List (List Char × JValue) :=
  if kvs.any (fun p => p.1 == k) then
    kvs.map (fun p => if p.1 == k then (k, v) else p)
  else kvs ++ [(k, v)]

/-- `dict.get(k, dflt)`. -/
def dGet (kvs : List (List Char × JValue)) (k : List Char) (dflt : JValue) : JValue :=
  match kvs.find? (fun p => p.1 == k) with
  | some p => p.2
  | none => dflt

def hexVal (c : Char) : Option Nat :=
  let n := c.toNat
  if 48 ≤ n && n ≤ 57 then some (n - 48)
  else if 97 ≤ n && n ≤ 102 then some (n - 87)
  else if 65 ≤ n && n ≤ 70 then some (n - 55)
  else none

/-- Parse the body of a JSON string literal, the opening quote already
consumed.  Strict mode: unescaped control characters are rejected.  A
`\uXXXX` high surrogate followed by a low surrogate yields the combined
code point (as in CPython); a lone surrogate is not a valid `Char` and
degrades to NUL, a corner no claim touches. -/
def parseJStringF : Nat → List Char → Option (List Char × List Char)
  | 0, _ => none
  | _, [] => none
  | _, '"' :: rest => some ([], rest)
  | fuel + 1, '\\' :: e :: rest =>
    match e, rest with
    | '"', r => (fun p => ('"' :: p.1, p.2)) <$> parseJStringF fuel r
    | '\\', r => (fun p => ('\\' :: p.1, p.2)) <$> parseJStringF fuel r
    | '/', r => (fun p => ('/' :: p.1, p.2)) <$> parseJStringF fuel r
    | 'b', r => (fun p => ('\x08' :: p.1, p.2)) <$> parseJStringF fuel r
    | 'f', r => (fun p => ('\x0c' :: p.1, p.2)) <$> parseJStringF fuel r
    | 'n', r => (fun p => ('\n' :: p.1, p.2)) <$> parseJStringF fuel r
    | 'r', r => (fun p => ('\r' :: p.1, p.2)) <$> parseJStringF fuel r
    | 't', r => (fun p => ('\t' :: p.1, p.2)) <$> parseJStringF fuel r
    | 'u', a :: b :: c :: d :: r =>
      match hexVal a, hexVal b, hexVal c, hexVal d with
      | some ha, some hb, some hc, some hd =>
        let n := ((ha * 16 + hb) * 16 + hc) * 16 + hd
        if 0xD800 ≤ n && n ≤ 0xDBFF then
          match r with
          | '\\' :: 'u' :: a2 :: b2 :: c2 :: d2 :: r2 =>
            match hexVal a2, hexVal b2, hexVal c2, hexVal d2 with
            | some ha2, some hb2, some hc2, some hd2 =>
              let m := ((ha2 * 16 + hb2) * 16 + hc2) * 16 + hd2
              if 0xDC00 ≤ m && m ≤ 0xDFFF then
                let cp := (n - 55296) * 1024 + (m - 56320) + 65536
                (fun p => (Char.ofNat cp :: p.1, p.2)) <$> parseJStringF fuel r2
              else (fun p => (Char.ofNat n :: p.1, p.2)) <$> parseJStringF fuel r
            | _, _, _, _ => (fun p => (Char.ofNat n :: p.1, p.2)) <$> parseJStringF fuel r
          | _ => (fun p => (Char.ofNat n :: p.1, p.2)) <$> parseJStringF fuel r
        else (fun p => (Char.ofNat n :: p.1, p.2)) <$> parseJStringF fuel r
      | _, _, _, _ => none
    | _, _ => none
  | fuel + 1, c :: rest =>
    if c.toNat < 0x20 then none
    else (fun p => (c :: p.1, p.2)) <$> parseJStringF fuel rest

def parseJString (t : List Char) : Option (List Char × List Char) :=
  parseJStringF (t.length + 1) t

def digitsToInt (ds : List Char) : Int :=
  ds.foldl (fun acc c => acc * 10 + (Int.ofNat (c.toNat - 48))) 0

/-- Strict JSON integer literal `-?(0|[1-9][0-9]*)`; a following `.`, `e`
or `E` would make it a float, which is outside this model. -/
def parseJNumber (t : List Char) : Option (JValue × List Char) :=
  let (neg, t1) := match t with
    | '-' :: r => (true, r)
    | _ => (false, t)
  let ds := t1.takeWhile isDigitCh
  let rest := t1.drop ds.length
  if ds.isEmpty then none
  else if 2 ≤ ds.length && ds.headD '0' == '0' then none
  else
    match rest with
    | '.' :: _ => none
    | 'e' :: _ => none
    | 'E' :: _ => none
    | _ =>
      let n := digitsToInt ds
      some (.int (if neg then -n else n), rest)

mutual

/-- One JSON value starting at the head of the (whitespace-skipped) input. -/
def parseJValue : Nat → List Char → Option (JValue × List Char)
  | 0, _ => none
  | fuel + 1, t =>
    if startsWithL t ("null".toList) then some (.null, t.drop 4)
    else if startsWithL t ("true".toList) then some (.bool true, t.drop 4)
    else if startsWithL t ("false".toList) then some (.bool false, t.drop 5)
    else
    match t with
    | '"' :: rest => (fun p => (JValue.str p.1, p.2)) <$> parseJString rest
    | '{' :: rest =>
      match skipJWs rest with
      | '}' :: r2 => some (.obj [], r2)
      | r2 => parseJMembers fuel r2 []
    | '[' :: rest =>
      match skipJWs rest with
      | ']' :: r2 => some (.arr [], r2)
      | r2 => parseJElems fuel r2 []
    | _ => parseJNumber t

def parseJMembers : Nat → List Char → List (List Char × JValue) →
    Option (JValue × List Char)
  | 0, _, _ => none
  | fuel + 1, t, acc =>
    match t with
    | '"' :: rest =>
      match parseJString rest with
      | none => none
      | some (k, r1) =>
        match skipJWs r1 with
        | ':' :: r2 =>
          match parseJValue fuel (skipJWs r2) with
          | none => none
          | some (v, r3) =>
            let acc2 := dictInsert acc k v
            match skipJWs r3 with
            | ',' :: r4 => parseJMembers fuel (skipJWs r4) acc2
            | '}' :: r4 => some (.obj acc2, r4)
            | _ => none
        | _ => none
    | _ => none

def parseJElems : Nat → List Char → List JValue → Option (JValue × List Char)
  | 0, _, _ => none
  | fuel + 1, t, acc =>
    match parseJValue fuel t with
    | none => none
    | some (v, r1) =>
      match skipJWs r1 with
      | ',' :: r2 => parseJElems fuel (skipJWs r2) (acc ++ [v])
      | ']' :: r2 => some (.arr (acc ++ [v]), r2)
      | _ => none

end

/-- `json.loads`: one value, surrounded only by insignificant whitespace. -/
def loads (t : List Char) : Option JValue :=
  match parseJValue (t.length + 1) (skipJWs t) with
  | some (v, rest) => if (skipJWs rest).isEmpty then some v else none
  | none => none

/-!  ## JSON repair (`_fix_json`, epos.py lines 496-526) -/

/-- The replacement of repair stage 1:
`.replace('\n','\\n').replace('\r','\\r').replace('\t','\\t')` on the
matched span (the replacement strings reintroduce none of the targets, so
the chain is a per-character expansion). -/
def escapeCtl (t : List Char) : List Char :=
  t.flatMap fun c =>
    if c == '\n' then ['\\', 'n']
    else if c == '\r' then ['\\', 'r']
    else if c == '\t' then ['\\', 't']
    else [c]

/-- The lazy body-plus-lookahead `(.*?)(?="[,}\s])` of repair stage 1:
the shortest split whose remainder starts with `"` followed by `,`, `}`
or whitespace.  Returns (span, remainder); the lookahead is not consumed. -/
def splitAtValEnd : List Char → Option (List Char × List Char)
  | [] => none
  | '"' :: d :: rest =>
    if d == ',' || d == '}' || isPySpace d then some ([], '"' :: d :: rest)
    else (fun p => ('"' :: p.1, p.2)) <$> splitAtValEnd (d :: rest)
  | c :: rest => (fun p => (c :: p.1, p.2)) <$> splitAtValEnd rest

/-- Last `n` elements of a list (for the 4-character lookbehind window). -/
def lastN (n : Nat) (t : List Char) : List Char := t.drop (t.length - n)

/-- Repair stage 1, `re.sub(r'(?<=": ")(.*?)(?="[,}\s])', …, raw, DOTALL)`:
escape raw newlines, carriage returns and tabs between a `": "` opener and
a closing quote.  `ctx` is the window of (up to) four original characters
before the current scan position: the lookbehind reads the subject string,
not the partially built replacement.  An empty match contributes an empty
replacement and the scan advances one character, as in CPython `re`. -/
def subEscInValF : Nat → List Char → List Char → List Char
  | 0, _, t => t
  | _, _, [] => []
  | fuel + 1, ctx, c :: rest =>
    if ctx == ['"', ':', ' ', '"'] then
      match splitAtValEnd (c :: rest) with
      | some (content, suffix) =>
        if content.isEmpty then
          c :: subEscInValF fuel (lastN 4 (ctx ++ [c])) rest
        else
          escapeCtl content ++ subEscInValF fuel (lastN 4 (ctx ++ content)) suffix
      | none => c :: subEscInValF fuel (lastN 4 (ctx ++ [c])) rest
    else c :: subEscInValF fuel (lastN 4 (ctx ++ [c])) rest

def fixStage1 (raw : List Char) : List Char := subEscInValF (raw.length + 1) [] raw

/-- The `\s*(\w+)\s*:` part of `re.sub(r'(?<=[{,])\s*(\w+)\s*:', r' "\1":', …)`:
whitespace, a nonempty word, whitespace, a colon.  Returns the word and the
remainder after the colon. -/
def matchBareKey (t : List Char) : Option (List Char × List Char) :=
  let t1 := skipWs t
  let word := t1.takeWhile isWordChar
  if word.isEmpty then none
  else
    match skipWs (t1.drop word.length) with
    | ':' :: r => some (word, r)
    | _ => none

/-- Bare-key quoting of repair stages 2 and 3.  `prev` is the original
character before the scan position (the single-character lookbehind
`(?<=[{,])`); after a replacement the previous original character is the
matched colon. -/
def subBareKeysF : Nat → Option Char → List Char → List Char
  | 0, _, t => t
  | _, _, [] => []
  | fuel + 1, prev, c :: rest =>
    if prev == some '{' || prev == some ',' then
      match matchBareKey (c :: rest) with
      | some (word, r) =>
        (' ' :: '"' :: word ++ ['"', ':']) ++ subBareKeysF fuel (some ':') r
      | none => c :: subBareKeysF fuel (some c) rest
    else c :: subBareKeysF fuel (some c) rest

def quoteBareKeys (t : List Char) : List Char := subBareKeysF (t.length + 1) none t

/-- `.replace('""', '"')` after bare-key quoting. -/
def collapseDoubleQuotes (t : List Char) : List Char :=
  pyReplace ['"', '"'] ['"'] t

/-- Stage 3 pre-pass: translate full-width Japanese quotation brackets to
standard double quotes (four chained single-character `str.replace`s). -/
def jpnToQuote (t : List Char) : List Char :=
  t.map fun c =>
    if c == '「' || c == '」' || c == '『' || c == '』' then '"' else c

/-- `_fix_json` (epos.py lines 496-526): progressive JSON repair, first
successful parse wins, `none` when every stage fails. -/
def fixJson (raw : List Char) : Option JValue :=
  let fixed := fixStage1 raw
  match loads fixed with
  | some v => some v
  | none =>
    let fixed2 := collapseDoubleQuotes (quoteBareKeys fixed)
    match loads fixed2 with
    | some v => some v
    | none =>
      let fixed3 := collapseDoubleQuotes (quoteBareKeys (jpnToQuote fixed))
      match loads fixed3 with
      | some v => some v
      | none =>
        match loads (fixed2 ++ ['"', '}']) with
        | some v => some v
        | none =>
          match loads (fixed2 ++ ['"', '}', '}']) with
          | some v => some v
          | none =>
            match loads (fixed2 ++ ['}']) with
            | some v => some v
            | none =>
              match loads (fixed2 ++ ['}', '}']) with
              | some v => some v
              | none => none

/-!  ## Tool-call JSON normalisation (`_parse_tool_json`, lines 528-549) -/

/-- Python truthiness of a decoded JSON value. -/
def pyTruthy : JValue → Bool
  | .null => false
  | .bool b => b
  | .int n => n != 0
  | .str s => !s.isEmpty
  | .arr xs => !xs.isEmpty
  | .obj kvs => !kvs.isEmpty

mutual

/-- Python `str()` of a decoded JSON value (`str(args)` in the source).
`repr` of nested strings is simplified to single-quoted with the common
escapes; no claim exercises the container branches. -/
def pyStr : JValue → List Char
  | .null => ['N', 'o', 'n', 'e']
  | .bool true => ['T', 'r', 'u', 'e']
  | .bool false => ['F', 'a', 'l', 's', 'e']
  | .int n => (toString n).toList
  | .str s => s
  | .arr xs => '[' :: pyReprSeq xs ++ [']']
  | .obj kvs => '\x7b' :: pyReprKvs kvs ++ ['\x7d']

def pyRepr : JValue → List Char
  | .str s =>
    '\'' :: (s.flatMap fun c =>
      if c == '\\' then ['\\', '\\']
      else if c == '\'' then ['\\', '\'']
      else if c == '\n' then ['\\', 'n']
      else if c == '\r' then ['\\', 'r']
      else if c == '\t' then ['\\', 't']
      else [c]) ++ ['\'']
  | v => pyStr v

def pyReprSeq : List JValue → List Char
  | [] => []
  | [v] => pyRepr v
  | v :: rest => pyRepr v ++ (',' :: ' ' :: pyReprSeq rest)

def pyReprKvs : List (List Char × JValue) → List Char
  | [] => []
  | [(k, v)] => pyRepr (.str k) ++ (':' :: ' ' :: pyRepr v)
  | (k, v) :: rest => pyRepr (.str k) ++ (':' :: ' ' :: pyRepr v) ++ (',' :: ' ' :: pyReprKvs rest)

end

/-- `_TOOL_NAME_MAP` (lines 396-399). -/
def TOOL_NAME_MAP : List (List Char × List Char) :=
  [("検索".toList, "search".toList), ("探す".toList, "search".toList),
   ("調べる".toList, "search".toList), ("サーチ".toList, "search".toList),
   ("メッセージ".toList, "message".toList), ("伝える".toList, "message".toList),
   ("話す".toList, "message".toList), ("送信".toList, "message".toList)]

/-- `_normalize_tool_name` (lines 401-403): strip, then alias lookup with
the name itself as default. -/
def normalizeToolName (name : List Char) : List Char :=
  let n := pyStrip name
  match TOOL_NAME_MAP.find? (fun p => p.1 == n) with
  | some p => p.2
  | none => n

/-- Lines 545-548: reduce the (possibly re-parsed) `arguments` value to the
call content: the first value of a nonempty object (authored order), the
empty string for an empty object, otherwise `str(args) if args else ""`. -/
def reduceArgs : JValue → JValue
  | .obj [] => .str []
  | .obj (kv :: _) => kv.2
  | v => if pyTruthy v then .str (pyStr v) else .str []

/-- `_parse_tool_json` (lines 528-549).  `.ok none` models `return None`
(unrepairable, non-dict, or falsy name); `.error ()` models the
`AttributeError` that `name.strip()` raises when the decoded `name` is
truthy but not a string — that exception escapes to the loop boundary. -/
def parseToolJson (raw : List Char) : Except Unit (Option (List Char × JValue)) :=
  match fixJson raw with
  | none => .ok none
  | some call =>
    match call with
    | .obj kvs =>
      let name := dGet kvs ("name".toList) (.str [])
      if pyTruthy name then
        match name with
        | .str nm =>
          let nm2 := normalizeToolName nm
          let args := dGet kvs ("arguments".toList) (.obj [])
          match args with
          | .str s =>
            match loads s with
            | none => .ok (some (nm2, .str s))
            | some args2 => .ok (some (nm2, reduceArgs args2))
          | _ => .ok (some (nm2, reduceArgs args))
        | _ => .error ()
      else .ok none
    | _ => .ok none

/-!  ## Regex scanners for the fixed call-markup patterns

`scanFindAll` reproduces `re.finditer`: try a match at every position from
left to right, resume after a match, advance one character after a failed
position.  `scanRemove` reproduces `re.sub(pattern, '', text)` the same
way.  Every pattern starts with a nonempty literal, so a successful match
consumes at least one character and the text length bounds the fuel. -/

def scanFindAll (matchAt : List Char → Option (α × List Char)) :
    Nat → List Char → List α
  | 0, _ => []
  | _, [] => []
  | fuel + 1, c :: rest =>
    match matchAt (c :: rest) with
    | some (a, rem) => a :: scanFindAll matchAt fuel rem
    | none => scanFindAll matchAt fuel rest

def scanRemove (matchAt : List Char → Option (List Char)) :
    Nat → List Char → List Char
  | 0, t => t
  | _, [] => []
  | fuel + 1, c :: rest =>
    match matchAt (c :: rest) with
    | some rem => scanRemove matchAt fuel rem
    | none => c :: scanRemove matchAt fuel rest

/-- The tail `.*?` `mid` `\s*` `thenL` of several patterns: lazily find the
first position where `midL` matches and, after it and greedy whitespace,
`thenL` matches.  Returns the span before `midL` and the remainder after
`thenL`. -/
def lazyLitThen (midL thenL : List Char) : List Char → Option (List Char × List Char)
  | [] => none
  | c :: rest =>
    if startsWithL (c :: rest) midL then
      let after := skipWs ((c :: rest).drop midL.length)
      if startsWithL after thenL then some ([], after.drop thenL.length)
      else (fun p => (c :: p.1, p.2)) <$> lazyLitThen midL thenL rest
    else (fun p => (c :: p.1, p.2)) <$> lazyLitThen midL thenL rest

/-- Matcher for `openL\s*(\{.*?\})\s*closeL` (formats 1, 7, 3 and 6 of
`_process_tools`, and the fenced-removal sub of `_sanitize_for_context`).
Returns the brace group and the remainder after `closeL`. -/
def jsonTagMatchAt (openL closeL : List Char) (t : List Char) :
    Option (List Char × List Char) :=
  if startsWithL t openL then
    match skipWs (t.drop openL.length) with
    | '{' :: t2 =>
      match lazyLitThen ['}'] closeL t2 with
      | some (content, rem) => some ('{' :: (content ++ ['}']), rem)
      | none => none
    | _ => none
  else none

/-- Format 2 matcher:
`<tool_call>\s*(\w+)\s*<arg_key>(\w+)</arg_key>\s*<arg_value>(.*?)</arg_value>\s*</tool_call>`.
Returns (raw name, raw value) and the remainder. -/
def matchF2At (t : List Char) : Option ((List Char × List Char) × List Char) :=
  if startsWithL t ("<tool_call>".toList) then
    let t1 := skipWs (t.drop 11)
    let w1 := t1.takeWhile isWordChar
    if w1.isEmpty then none
    else
      let t2 := skipWs (t1.drop w1.length)
      if startsWithL t2 ("<arg_key>".toList) then
        let t3 := t2.drop 9
        let w2 := t3.takeWhile isWordChar
        if w2.isEmpty then none
        else
          let t4 := t3.drop w2.length
          if startsWithL t4 ("</arg_key>".toList) then
            let t5 := skipWs (t4.drop 10)
            if startsWithL t5 ("<arg_value>".toList) then
              match lazyLitThen ("</arg_value>".toList) ("</tool_call>".toList) (t5.drop 11) with
              | some (value, rem) => some ((w1, value), rem)
              | none => none
            else none
          else none
      else none
  else none

/-- Format 4 matcher:
`<function=(\w+)>\s*<parameter=(\w+)>(.*?)</parameter>\s*</function>`. -/
def matchF4At (t : List Char) : Option ((List Char × List Char) × List Char) :=
  if startsWithL t ("<function=".toList) then
    let t1 := t.drop 10
    let w1 := t1.takeWhile isWordChar
    if w1.isEmpty then none
    else
      match t1.drop w1.length with
      | '>' :: t2 =>
        let t3 := skipWs t2
        if startsWithL t3 ("<parameter=".toList) then
          let t4 := t3.drop 11
          let w2 := t4.takeWhile isWordChar
          if w2.isEmpty then none
          else
            match t4.drop w2.length with
            | '>' :: t5 =>
              match lazyLitThen ("</parameter>".toList) ("</function>".toList) t5 with
              | some (value, rem) => some ((w1, value), rem)
              | none => none
            | _ => none
        else none
      | _ => none
  else none

/-- The tool-name alternation of format 5 and of sanitize line 417. -/
def f5Names : List (List Char) :=
  [("search".toList), ("message".toList), ("検索".toList), ("メッセージ".toList),
   ("伝える".toList), ("話す".toList), ("送信".toList), ("探す".toList),
   ("調べる".toList), ("サーチ".toList)]

/-- Format 5 matcher:
`(?:search|message|…)\s*\n?\s*(\{[^}]*\})\s*\n?\s*</tool_call>`.
`\s*\n?\s*` is an arbitrary whitespace run; `[^}]*` cannot cross a brace,
so the group ends at the first `}` and there is no backtracking. -/
def matchF5At (t : List Char) : Option (List Char × List Char) :=
  match f5Names.find? (fun nm => startsWithL t nm) with
  | none => none
  | some nm =>
    match skipWs (t.drop nm.length) with
    | '{' :: t2 =>
      let content := t2.takeWhile (fun c => c != '}')
      match t2.drop content.length with
      | '}' :: t3 =>
        let t4 := skipWs t3
        if startsWithL t4 ("</tool_call>".toList) then
          some ('{' :: (content ++ ['}']), t4.drop 12)
        else none
      | _ => none
    | _ => none

/-!  ## Sanitizer (`_sanitize_for_context`, lines 405-428) -/

/-- `re.sub(openL + '.*?' + closeL, '', s, DOTALL)`: drop from each
leftmost unprocessed `openL` to the first `closeL` after it. -/
def subLazyPairF (openL closeL : List Char) : Nat → List Char → List Char
  | 0, t => t
  | fuel + 1, t =>
    match splitFirst openL t with
    | none => t
    | some (before, afterOpen) =>
      match splitFirst closeL afterOpen with
      | none => t
      | some (_, afterClose) => before ++ subLazyPairF openL closeL fuel afterClose

def subLazyPair (openL closeL t : List Char) : List Char :=
  subLazyPairF openL closeL (t.length + 1) t

/-- `re.sub(lit + '.*$', '', s, DOTALL)`: drop everything from the first
occurrence of `lit` to the end. -/
def subToEndAfter (lit t : List Char) : List Char :=
  match splitFirst lit t with
  | none => t
  | some (before, _) => before

/-- Line 421, `re.sub(r'<tool_call>(?!.*</tool_call>).*$', '', s, DOTALL)`:
drop from the first `<tool_call>` that has no `</tool_call>` anywhere
after it, to the end. -/
def subToolCallNoCloseF : Nat → List Char → List Char
  | 0, t => t
  | fuel + 1, t =>
    match splitFirst ("<tool_call>".toList) t with
    | none => t
    | some (before, afterOpen) =>
      if containsSub ("</tool_call>".toList) afterOpen then
        before ++ ("<tool_call>".toList) ++ subToolCallNoCloseF fuel afterOpen
      else before

def subToolCallNoClose (t : List Char) : List Char :=
  subToolCallNoCloseF (t.length + 1) t

/-- Line 416 matcher, `<function=\w+>.*?</function>`. -/
def matchFnEqAt (t : List Char) : Option (List Char) :=
  if startsWithL t ("<function=".toList) then
    let t1 := t.drop 10
    let w := t1.takeWhile isWordChar
    if w.isEmpty then none
    else
      match t1.drop w.length with
      | '>' :: t2 => (fun p => p.2) <$> splitFirst ("</function>".toList) t2
      | _ => none
  else none

/-- Line 418 matcher, ``` ```tool_call\s*\{[^}]*$ ```: the fenced opener,
whitespace, a brace and no closing brace anywhere after — the match (and
removal) extends to the end of the text. -/
def matchFencedOpenBraceAt (t : List Char) : Option (List Char) :=
  if startsWithL t ("```tool_call".toList) then
    match skipWs (t.drop 12) with
    | '{' :: t2 => if t2.contains '}' then none else some []
    | _ => none
  else none

/-- Line 419 matcher, ``` ```tool_call\s*$ ```: the fenced opener followed
only by whitespace up to the end. -/
def matchFencedBareAt (t : List Char) : Option (List Char) :=
  if startsWithL t ("```tool_call".toList) then
    if (t.drop 12).all isPySpace then some [] else none
  else none

/-- Line 426 matcher, `<arg_key>.*?</arg_key>` without DOTALL: the lazy
body cannot contain a newline. -/
def lazyNoNl (closeL : List Char) : List Char → Option (List Char)
  | [] => none
  | c :: rest =>
    if startsWithL (c :: rest) closeL then some ((c :: rest).drop closeL.length)
    else if c == '\n' then none
    else lazyNoNl closeL rest

def matchArgKeyAt (t : List Char) : Option (List Char) :=
  if startsWithL t ("<arg_key>".toList) then lazyNoNl ("</arg_key>".toList) (t.drop 9)
  else none

/-- `_sanitize_for_context` (lines 405-428), each step in source order. -/
def sanitizeForContext (text : List Char) : List Char :=
  let s := text
  let s := subLazyPair ("<think>".toList) ("</think>".toList) s
  let s := subToEndAfter ("<think>".toList) s
  let s := pyReplace ("</think>".toList) [] s
  let s := subLazyPair ("<tool_call>".toList) ("</tool_call>".toList) s
  let s := subLazyPair ("<tool_call>".toList) ("</talk>".toList) s
  let s := scanRemove (fun t => (fun p => p.2) <$>
    jsonTagMatchAt ("```tool_call".toList) ("```".toList) t) (s.length + 1) s
  let s := subLazyPair ("<function_calls>".toList) ("</tool>".toList) s
  let s := subLazyPair ("<function_calls>".toList) ("</function_calls>".toList) s
  let s := scanRemove matchFnEqAt (s.length + 1) s
  let s := scanRemove (fun t => (fun p => p.2) <$> matchF5At t) (s.length + 1) s
  let s := scanRemove matchFencedOpenBraceAt (s.length + 1) s
  let s := scanRemove matchFencedBareAt (s.length + 1) s
  let s := subToEndAfter ("<function_calls>".toList) s
  let s := subToolCallNoClose s
  let s := pyReplace ("</tool_call>".toList) [] s
  let s := pyReplace ("</talk>".toList) [] s
  let s := pyReplace ("</tool>".toList) [] s
  let s := pyReplace ("</arg_value>".toList) [] s
  let s := scanRemove matchArgKeyAt (s.length + 1) s
  let s := collapseNl s
  pyStrip s

/-- The think-block removal at the head of `_process_tools` (lines 434-436). -/
def removeThink (text : List Char) : List Char :=
  let s := subLazyPair ("<think>".toList) ("</think>".toList) text
  let s := subToEndAfter ("<think>".toList) s
  pyReplace ("</think>".toList) [] s

/-!  ## Open-tag detection (`_has_open_tool_tag`, lines 578-595) -/

def openTagList : List (List Char) :=
  [("<tool_call>".toList), ("<function_calls>".toList), ("<function=".toList)]

def closeTagList : List (List Char) :=
  [("</tool_call>".toList), ("</talk>".toList), ("</tool>".toList),
   ("</function_calls>".toList), ("</function>".toList)]

/-- `last_open`: the greatest `rfind` index over the three opening tags,
`none` when none occurs (`-1` in the source). -/
def lastOpenIdx (text : List Char) : Option Nat :=
  openTagList.foldl
    (fun acc tag =>
      match lastOccur tag text, acc with
      | some i, some j => some (max i j)
      | some i, none => some i
      | none, acc => acc)
    none

/-- `_has_open_tool_tag`: when some angle-bracket opening tag occurs, open
iff no closing spelling occurs at or after the last opener; otherwise fall
back to the fenced spelling, open iff ```` ```tool_call ```` occurs with no
```` ``` ```` after it. -/
def hasOpenToolTag (text : List Char) : Bool :=
  match lastOpenIdx text with
  | none =>
    match lastOccur ("```tool_call".toList) text with
    | none => false
    | some i => !containsSub ("```".toList) (text.drop (i + 12))
  | some i =>
    let after := text.drop i
    !(closeTagList.any (fun tag => containsSub tag after))

/-!  ## Tool executor (`_execute_tool`, lines 551-574, and `_web_search`,
lines 378-392)

The search collaborator (`_cli_call`, a subprocess boundary) is an oracle
`List Char → List Char` from prompt to standard output, empty on failure,
timeout or unavailability, exactly the contract of the source function.
Wall-clock timestamps attached to pending messages and JSONL file writes
are outside the model; the logged records are kept as `LogEvent`s. -/

inductive LogEvent where
  | toolBlocked (content : JValue) (tool : List Char) (reason : List Char) (remaining : Int)
  | searchEv (content : JValue) (query : JValue)
  | searchResult (result : List Char) (query : JValue) (length : Nat) (status : List Char)
  | messageSent (content : JValue) (length : Nat)
  | toolUnknown (content : JValue) (tool : List Char)

structure EState where
  thoughtCount : Int
  lastSearchThought : Int
  lastMessageThought : Int
  pendingMessages : List JValue
  events : List LogEvent

/-- Python slicing `x[:60]` / `x[:80]` is defined for strings and lists;
on any other decoded JSON value the diagnostic print of the source raises
`TypeError`. -/
def sliceable : JValue → Bool
  | .str _ => true
  | .arr _ => true
  | _ => false

/-- `len` of a sliceable decoded value. -/
def pyLen : JValue → Nat
  | .str s => s.length
  | .arr xs => xs.length
  | _ => 0

/-- `_web_search` (lines 378-392): disabled without the CLI, otherwise one
oracle call on the fixed Japanese prompt; empty and non-empty answers are
logged with distinct statuses. -/
def webSearch (hasCli : Bool) (oracle : List Char → List Char) (s : EState)
    (query : JValue) : List Char × EState :=
  if !hasCli then
    ([], { s with events := s.events ++
      [.searchResult [] query 0 ("disabled".toList)] })
  else
    let prompt := ("「".toList) ++ pyStr query ++
      ("」について、事実に基づいた情報を簡潔に300文字以内で教えてください。箇条書き不要、要点のみ。".toList)
    let answer := oracle prompt
    if answer.isEmpty then
      ([], { s with events := s.events ++
        [.searchResult [] query 0 ("empty".toList)] })
    else
      (answer, { s with events := s.events ++
        [.searchResult answer query answer.length ("ok".toList)] })

/-- `_execute_tool` (lines 551-574).  The `Except` component is the
result string; `.error ()` models the `TypeError` raised by the
diagnostic `content[:60]` / `content[:80]` when the content is not
sliceable, after the state mutations that precede it. -/
def executeTool (hasCli : Bool) (oracle : List Char → List Char) (s : EState)
    (name : List Char) (content : JValue) : Except Unit (List Char) × EState :=
  if name == ("search".toList) then
    if s.thoughtCount - s.lastSearchThought < 5 then
      let r := 5 - (s.thoughtCount - s.lastSearchThought)
      (.ok [], { s with events := s.events ++
        [.toolBlocked content ("search".toList) ("cooldown".toList) r] })
    else
      let s1 := { s with lastSearchThought := s.thoughtCount,
                         events := s.events ++ [.searchEv content content] }
      if !sliceable content then (.error (), s1)
      else
        let (res, s2) := webSearch hasCli oracle s1 content
        (.ok res, s2)
  else if name == ("message".toList) then
    let s1 := { s with pendingMessages := s.pendingMessages ++ [content] }
    if !sliceable content then (.error (), s1)
    else
      let s2 := { s1 with lastMessageThought := s.thoughtCount,
                          events := s1.events ++ [.messageSent content (pyLen content)] }
      (.ok [], s2)
  else
    (.ok [], { s with events := s.events ++ [.toolUnknown content name] })

/-!  ## Extraction driver (`_process_tools`, lines 430-494) -/

structure ToolCall where
  name : List Char
  content : JValue
  result : List Char

/-- One `finditer` loop over JSON-carrying matches: parse each captured
group, skip unparseable ones, execute and accumulate the rest.  A raised
exception aborts the whole extraction pass. -/
def runJsonCalls (hasCli : Bool) (oracle : List Char → List Char) :
    EState → List ToolCall → List (List Char) → Except Unit (List ToolCall × EState)
  | s, acc, [] => .ok (acc, s)
  | s, acc, raw :: rest =>
    match parseToolJson raw with
    | .error e => .error e
    | .ok none => runJsonCalls hasCli oracle s acc rest
    | .ok (some (name, content)) =>
      match executeTool hasCli oracle s name content with
      | (.error e, _) => .error e
      | (.ok result, s2) =>
        runJsonCalls hasCli oracle s2 (acc ++ [⟨name, content, result⟩]) rest

/-- One `finditer` loop over the direct-extraction formats 2 and 4: the
name is normalised, the value stripped, and the call executed. -/
def runDirectCalls (hasCli : Bool) (oracle : List Char → List Char) :
    EState → List ToolCall → List (List Char × List Char) →
    Except Unit (List ToolCall × EState)
  | s, acc, [] => .ok (acc, s)
  | s, acc, (rawName, rawVal) :: rest =>
    let name := normalizeToolName rawName
    let content := JValue.str (pyStrip rawVal)
    match executeTool hasCli oracle s name content with
    | (.error e, _) => .error e
    | (.ok result, s2) =>
      runDirectCalls hasCli oracle s2 (acc ++ [⟨name, content, result⟩]) rest

def findF1 (clean : List Char) : List (List Char) :=
  scanFindAll (jsonTagMatchAt ("<tool_call>".toList) ("</tool_call>".toList))
    (clean.length + 1) clean

def findF7 (clean : List Char) : List (List Char) :=
  scanFindAll (jsonTagMatchAt ("<tool_call>".toList) ("</talk>".toList))
    (clean.length + 1) clean

def findF2 (clean : List Char) : List (List Char × List Char) :=
  scanFindAll matchF2At (clean.length + 1) clean

def findF3 (clean : List Char) : List (List Char) :=
  scanFindAll (jsonTagMatchAt ("<function_calls>".toList) ("</tool>".toList))
    (clean.length + 1) clean

def findF4 (clean : List Char) : List (List Char × List Char) :=
  scanFindAll matchF4At (clean.length + 1) clean

def findF6 (clean : List Char) : List (List Char) :=
  scanFindAll (jsonTagMatchAt ("```tool_call".toList) ("```".toList))
    (clean.length + 1) clean

def findF5 (clean : List Char) : List (List Char) :=
  scanFindAll matchF5At (clean.length + 1) clean

/-- Formats 1, 7, 2, 3, 4 and 6 in source order (lines 438-482). -/
def processPhase16 (hasCli : Bool) (oracle : List Char → List Char)
    (s : EState) (clean : List Char) : Except Unit (List ToolCall × EState) := do
  let (acc, s) ← runJsonCalls hasCli oracle s [] (findF1 clean)
  let (acc, s) ← runJsonCalls hasCli oracle s acc (findF7 clean)
  let (acc, s) ← runDirectCalls hasCli oracle s acc (findF2 clean)
  let (acc, s) ← runJsonCalls hasCli oracle s acc (findF3 clean)
  let (acc, s) ← runDirectCalls hasCli oracle s acc (findF4 clean)
  let (acc, s) ← runJsonCalls hasCli oracle s acc (findF6 clean)
  .ok (acc, s)

/-- `_process_tools` (lines 430-494): think-stripping, the six primary
formats, then format 5 only if `tool_calls` is still empty, and the
sanitized original text. -/
def processTools (hasCli : Bool) (oracle : List Char → List Char)
    (s : EState) (text : List Char) :
    Except Unit (List Char × List ToolCall × EState) := do
  let clean := removeThink text
  let (calls, s1) ← processPhase16 hasCli oracle s clean
  let (calls2, s2) ←
    if calls.isEmpty then runJsonCalls hasCli oracle s1 [] (findF5 clean)
    else Except.ok (calls, s1)
  .ok (sanitizeForContext text, calls2, s2)

/-!  ## Context compression (`_compress`, lines 682-699) and resets
(`revive_session`, lines 943-963, and `apply_seed`, lines 1045-1061) -/

/-- `TOOL_DEFINITION` (lines 128-137), the fixed tool-usage reminder block
reloaded after compression and appended to persisted sessions. -/
def TOOL_DEFINITION : List Char :=
  ("調べる時:\n<tool_call>\n\x7b\"name\": \"search\", \"arguments\": \x7b\"query\": \"知りたいこと\"\x7d\x7d\n</tool_call>\n\nUserに何を伝えようかな？:\n<tool_call>\n\x7b\"name\": \"message\", \"arguments\": \x7b\"content\": \"伝えたいこと\"\x7d\x7d\n</tool_call>\n".toList)

/-- Python `s[-n:]` for `n : Nat`: the last `n` characters, except that
`s[-0:]` is the whole string. -/
def pySliceLast (n : Nat) (l : List Char) : List Char :=
  if n = 0 then l else l.drop (l.length - n)

/-- The buffer effect of `_compress` (lines 682-699).  `summary` is the
outcome of the generation call: `some` text on success, `none` when
`_generate` raised (the `except` branch).  On success the whole buffer is
replaced by `f"{summary}\n\n{TOOL_DEFINITION}\n"`; on failure it is
truncated to `self.context_text[-self.compress_at_chars:]`. -/
def compressContext (compressAt : Nat) (ctx : List Char) (summary : Option (List Char)) :
    List Char :=
  match summary with
  | none => pySliceLast compressAt ctx
  | some sm => sm ++ ('\n' :: '\n' :: TOOL_DEFINITION) ++ ['\n']

/-- The engine fields touched by the reset paths.  Log file names, the log
timestamp and the wall-clock `_thought_durations` are filesystem/clock
artefacts outside the model; every other field assigned by
`revive_session` / `apply_seed`, and the experiment-mode state, is here. -/
structure EposState where
  seedText : List Char
  contextText : List Char
  thoughtCount : Int
  compressionCount : Nat
  totalTokensGenerated : Nat
  pendingMessages : List JValue
  thoughtLog : List (Int × List Char)
  lastSearchThought : Int
  lastMessageThought : Int
  emptyRetries : Nat
  experimentProtocol : Option (List Char)
  probeSchedule : List (Nat × List Char)
  probesFired : List Nat

/-- The state mutation of `revive_session` (lines 943-963) on its success
path (`mind` stopped, a session named and present); `text` is the file
content.  The fields not mentioned — in particular `probesFired`,
`probeSchedule` and `experimentProtocol` — are left as they were. -/
def reviveSession (s : EposState) (text : List Char) : EposState :=
  { s with seedText := text, contextText := text, thoughtCount := 0,
           compressionCount := 0, totalTokensGenerated := 0,
           pendingMessages := [], thoughtLog := [],
           lastSearchThought := -10, lastMessageThought := -10,
           emptyRetries := 0 }

/-- The state mutation of `apply_seed` (lines 1045-1061) on its success
path (`mind` stopped); `text` is the seed box content.  Field for field
the same assignments as `revive_session`. -/
def applySeed (s : EposState) (text : List Char) : EposState :=
  { s with seedText := text, contextText := text, thoughtCount := 0,
           compressionCount := 0, totalTokensGenerated := 0,
           pendingMessages := [], thoughtLog := [],
           lastSearchThought := -10, lastMessageThought := -10,
           emptyRetries := 0 }

/-!  ## Predicates and concrete data used in the statements below -/

def isObjB : JValue → Bool
  | .obj _ => true
  | _ => false

/-- Every literal that can trigger one of the sanitizer patterns: the
think-block tags and all recognized call-markup spellings. -/
def markerList : List (List Char) :=
  [("<think>".toList), ("</think>".toList),
   ("<tool_call>".toList), ("</tool_call>".toList), ("</talk>".toList),
   ("```tool_call".toList),
   ("<function_calls>".toList), ("</function_calls>".toList), ("</tool>".toList),
   ("<function=".toList), ("</function>".toList),
   ("<arg_key>".toList), ("</arg_key>".toList),
   ("<arg_value>".toList), ("</arg_value>".toList)]

/-- A text free of any recognized call markup and of think-blocks. -/
def cleanText (t : List Char) : Bool :=
  markerList.all (fun m => !containsSub m t)

/-- The spec example input of C1: `{name: "search", arguments: {query: "foo"}}`. -/
def c1input1 : List Char :=
  ("\x7bname: \"search\", arguments: \x7bquery: \"foo\"\x7d\x7d".toList)

/-- The C1 example with full-width Japanese quotation brackets around the values. -/
def c1input2 : List Char :=
  ("\x7bname: 「search」, arguments: \x7bquery: 「foo」\x7d\x7d".toList)

def c2oracle : List Char → List Char := fun _ => ("RESULT".toList)

def c2query : JValue := .str ("q".toList)

/-- State just before the successful search at thought-index 10. -/
def c2s10 : EState := ⟨10, -10, -10, [], []⟩

/-- State at thought-index 12, the last successful search at index 10. -/
def c2s12 : EState := ⟨12, 10, -10, [], []⟩

/-- State at thought-index 15, the last successful search at index 10. -/
def c2s15 : EState := ⟨15, 10, -10, [], []⟩

def c4state : EposState :=
  ⟨("seed".toList), ("ctx".toList), 42, 3, 999, [.str ("m".toList)],
   [(1, ("t".toList))], 37, 40, 2, some ("neutral".toList),
   [(50, ("probe".toList))], [50]⟩

def c4text : List Char := ("revived".toList)

/-- The oracle of an absent or failing search collaborator. -/
def nullOracle : List Char → List Char := fun _ => []

/-- The executor state at engine construction. -/
def emptyEState : EState := ⟨0, -10, -10, [], []⟩

/-- A text carrying one format-1 call and one format-5-only fragment. -/
def c5text : List Char :=
  ("pre <tool_call>\x7b\"name\": \"search\", \"arguments\": \x7b\"query\": \"alpha\"\x7d\x7d</tool_call> mid message\n\x7b\"name\": \"message\", \"arguments\": \"beta\"\x7d\n</tool_call> end".toList)

def c5calls : List ToolCall :=
  [⟨("search".toList), .str ("alpha".toList), []⟩]

def c5send : EState :=
  ⟨0, 0, -10, [],
   [.searchEv (.str ("alpha".toList)) (.str ("alpha".toList)),
    .searchResult [] (.str ("alpha".toList)) 0 ("disabled".toList)]⟩

/-- A repaired call object whose `arguments` has two keys. -/
def c6input1 : List Char :=
  ("\x7b\"name\": \"search\", \"arguments\": \x7b\"query\": \"foo\", \"extra\": \"bar\"\x7d\x7d".toList)

/-- A repaired call object whose `arguments` is a JSON-encoded string. -/
def c6input2 : List Char :=
  ("\x7b\"name\": \"search\", \"arguments\": \"\x7b\\\"query\\\": \\\"zap\\\"\x7d\"\x7d".toList)

def c7ctx : List Char := List.replicate 10500 'a'

/-- C8 counterexample: a closed angle-bracket call followed by an
unterminated fenced opener. -/
def c8text : List Char := ("<tool_call>x</tool_call>```tool_call \x7b".toList)

/-- C8 witness text: an unterminated fenced opener and no angle-bracket tag. -/
def c8wtext : List Char := ("abc```tool_call \x7bx".toList)

/-- C9 counterexample: markup-free, no newline runs, but a trailing space. -/
def c9cex : List Char := ("a ".toList)

def c9wtext : List Char := ("hello\n\n\n\nworld ".toList)

/-- A repairable fragment that is a JSON array, not an object. -/
def c10arr : List Char := ("[1, 2]".toList)

/-- A repairable object with no `name` key. -/
def c10noname : List Char := ("\x7b\"arguments\": \x7b\"a\": \"b\"\x7d\x7d".toList)

/-- A repairable object with an empty `name`. -/
def c10empty : List Char := ("\x7b\"name\": \"\"\x7d".toList)

/-- A fragment no repair stage can fix. -/
def c10bad : List Char := ("nonsense!!".toList)

/-- A fragment whose first repair stage already parses. -/
def c1w1 : List Char := ("\x7b\"a\": \"b\"\x7d".toList)

def c1w1val : JValue := .obj [(("a".toList), .str ("b".toList))]

/-- A fragment no repair stage can fix (for the C1 witness). -/
def c1bad : List Char := ("gibberish((".toList)

/-- The decoded object of `c6input1`. -/
def c6kvs1 : List (List Char × JValue) :=
  [(("name".toList), .str ("search".toList)),
   (("arguments".toList),
    .obj [(("query".toList), .str ("foo".toList)),
          (("extra".toList), .str ("bar".toList))])]

/-- The JSON-encoded `arguments` string inside `c6input2`. -/
def c6argstr : List Char := ("\x7b\"query\": \"zap\"\x7d".toList)

/-- The decoded object of `c6input2`. -/
def c6kvs2 : List (List Char × JValue) :=
  [(("name".toList), .str ("search".toList)),
   (("arguments".toList), .str c6argstr)]

/-- A text whose only call markup is a format-5 (no-opening-tag) fragment
carrying its own `name` field. -/
def c5f5text : List Char :=
  ("思考中。message\n\x7b\"name\": \"message\", \"arguments\": \"beta\"\x7d\n</tool_call> 続き".toList)

def c5f5calls : List ToolCall :=
  [⟨("message".toList), .str ("beta".toList), []⟩]

def c5f5send : EState :=
  ⟨0, -10, 0, [.str ("beta".toList)],
   [.messageSent (.str ("beta".toList)) 4]⟩

/-- The decoded object of `c10noname`. -/
def c10kvsNoname : List (List Char × JValue) :=
  [(("arguments".toList), .obj [(("a".toList), .str ("b".toList))])]

/-- The decoded object of `c10empty`. -/
def c10kvsEmpty : List (List Char × JValue) :=
  [(("name".toList), .str [])]

-- THEOREMS BELOW

/-- Claim C2: the search tool is rejected — empty result and one logged
"blocked" event carrying `remaining = 5 - gap` — whenever fewer than 5
thought-iterations have elapsed since its last non-blocked invocation, and
the cooldown timestamp is left unchanged; concretely, search at
thought-index 10 (from the initial state) succeeds and stamps index 10,
search at index 12 is blocked with `remaining = 3`, and search at index 15
(gap of exactly 5) is not blocked and stamps index 15. -/
theorem c2_search_cooldown :
    (∀ (hasCli : Bool) (oracle : List Char → List Char) (s : EState) (content : JValue),
      s.thoughtCount - s.lastSearchThought < 5 →
      executeTool hasCli oracle s ("search".toList) content =
        (.ok [], { s with events := s.events ++
          [.toolBlocked content ("search".toList) ("cooldown".toList)
            (5 - (s.thoughtCount - s.lastSearchThought))] })) ∧
    executeTool true c2oracle c2s10 ("search".toList) c2query =
      (.ok ("RESULT".toList),
       ⟨10, 10, -10, [],
        [.searchEv c2query c2query,
         .searchResult ("RESULT".toList) c2query 6 ("ok".toList)]⟩) ∧
    executeTool true c2oracle c2s12 ("search".toList) c2query =
      (.ok [], ⟨12, 10, -10, [],
        [.toolBlocked c2query ("search".toList) ("cooldown".toList) 3]⟩) ∧
    executeTool true c2oracle c2s15 ("search".toList) c2query =
      (.ok ("RESULT".toList),
       ⟨15, 15, -10, [],
        [.searchEv c2query c2query,
         .searchResult ("RESULT".toList) c2query 6 ("ok".toList)]⟩) := by
  refine ⟨?_, rfl, rfl, rfl⟩
  intro hasCli oracle s content h
  simp [executeTool, h]

/-- Witness for C2: the general blocked-path equation applied to the
concrete state at thought-index 12 with the last search at index 10. -/
theorem c2_search_cooldown_witness :
    executeTool false c2oracle c2s12 ("search".toList) c2query =
      (.ok [], { c2s12 with events := c2s12.events ++
        [.toolBlocked c2query ("search".toList) ("cooldown".toList)
          (5 - (c2s12.thoughtCount - c2s12.lastSearchThought))] }) :=
  c2_search_cooldown.1 false c2oracle c2s12 c2query (by decide)

/-- Claim C3 (amended): when the summary generation call succeeds, the
whole buffer is replaced by the summary, a blank line and the fixed
tool-usage reminder block — never by any pre-compression tail — so the
result always ends with the byte-identical reminder block; it is strictly
shorter than the pre-compression buffer provided the summary is more than
`TOOL_DEFINITION.length + 3` characters shorter than that buffer. -/
theorem c3_compress_replaces_buffer :
    ∀ (compressAt : Nat) (ctx summary : List Char),
      compressContext compressAt ctx (some summary) =
        summary ++ ('\n' :: '\n' :: TOOL_DEFINITION) ++ ['\n'] ∧
      (TOOL_DEFINITION ++ ['\n']) <:+ compressContext compressAt ctx (some summary) ∧
      (summary.length + TOOL_DEFINITION.length + 3 < ctx.length →
        (compressContext compressAt ctx (some summary)).length < ctx.length) := by
  intro compressAt ctx summary
  refine ⟨rfl, ?_, ?_⟩
  · show (TOOL_DEFINITION ++ ['\n']) <:+ summary ++ ('\n' :: '\n' :: TOOL_DEFINITION) ++ ['\n']
    exact ⟨summary ++ ['\n', '\n'], by simp⟩
  · intro h
    show (summary ++ ('\n' :: '\n' :: TOOL_DEFINITION) ++ ['\n']).length < ctx.length
    rw [List.length_append, List.length_append, List.length_cons, List.length_cons]
    simp only [List.length_cons, List.length_nil]
    omega

/-- Witness for C3: a 200-character buffer and a 1-character summary. -/
theorem c3_compress_replaces_buffer_witness :
    ("s".toList).length + TOOL_DEFINITION.length + 3 < (List.replicate 200 'a').length ∧
    (compressContext 1 (List.replicate 200 'a') (some ("s".toList))).length <
      (List.replicate 200 'a').length := by
  have h : ("s".toList).length + TOOL_DEFINITION.length + 3 < (List.replicate 200 'a').length := by
    show (1 : Nat) + 182 + 3 < 200
    norm_num
  exact ⟨h, (c3_compress_replaces_buffer 1 (List.replicate 200 'a') ("s".toList)).2.2 h⟩

/-- Counterexample for C3 as stated: compression fires (the buffer of
10001 characters exceeds the 10000-character threshold), the generation
call succeeds, yet the post-compression buffer is not strictly shorter,
because nothing in the code bounds the generated summary. -/
theorem c3_counterexample :
    10000 < (List.replicate 10001 'a' : List Char).length ∧
    ¬ ((compressContext 10000 (List.replicate 10001 'a')
          (some (List.replicate 11000 'b'))).length <
        (List.replicate 10001 'a' : List Char).length) := by
  have h1 : TOOL_DEFINITION.length = 182 := rfl
  constructor
  · rw [List.length_replicate]
    norm_num
  · show ¬ ((List.replicate 11000 'b' ++ ('\n' :: '\n' :: TOOL_DEFINITION) ++ ['\n']).length < _)
    rw [List.length_append, List.length_append, List.length_replicate,
      List.length_replicate, List.length_cons, List.length_cons, h1]
    norm_num

/-- Claim C4 (amended): `revive_session` and `apply_seed` reset the
thought-index, both cooldown timestamps and the thought log (together with
the pending messages, counters and retry state) to their initial values in
one step, but both leave the probe-fired set — and the rest of the
experiment state — exactly as it was. -/
theorem c4_reset_fields :
    ∀ (s : EposState) (text : List Char),
      ((reviveSession s text).thoughtCount = 0 ∧
       (reviveSession s text).lastSearchThought = -10 ∧
       (reviveSession s text).lastMessageThought = -10 ∧
       (reviveSession s text).thoughtLog = [] ∧
       (reviveSession s text).probesFired = s.probesFired) ∧
      ((applySeed s text).thoughtCount = 0 ∧
       (applySeed s text).lastSearchThought = -10 ∧
       (applySeed s text).lastMessageThought = -10 ∧
       (applySeed s text).thoughtLog = [] ∧
       (applySeed s text).probesFired = s.probesFired) := by
  intro s text
  exact ⟨⟨rfl, rfl, rfl, rfl, rfl⟩, ⟨rfl, rfl, rfl, rfl, rfl⟩⟩

/-- Counterexample for C4 as stated: reviving from a state whose
probe-fired set holds index 50 zeroes the thought-index, the cooldown
timestamps and the thought log, but the probe-fired set still holds 50 —
the four are not reset simultaneously. -/
theorem c4_counterexample :
    (reviveSession c4state c4text).thoughtCount = 0 ∧
    (reviveSession c4state c4text).lastSearchThought = -10 ∧
    (reviveSession c4state c4text).lastMessageThought = -10 ∧
    (reviveSession c4state c4text).thoughtLog = [] ∧
    (reviveSession c4state c4text).probesFired ≠ [] := by
  refine ⟨rfl, rfl, rfl, rfl, ?_⟩
  intro h
  simp [reviveSession, c4state] at h

/-- Claim C7 (amended): when the summary generation call fails, compression
never propagates the failure and falls back to hard truncation of the
buffer to the last `compressAtChars` characters (the compression
threshold, not `maxContextChars`): the result is a suffix of the buffer of
length `min compressAtChars (buffer length)`. -/
theorem c7_compress_failure :
    ∀ (compressAt : Nat) (ctx : List Char),
      0 < compressAt →
      compressContext compressAt ctx none <:+ ctx ∧
      (compressContext compressAt ctx none).length = min compressAt ctx.length := by
  intro n ctx h
  have hne : n ≠ 0 := Nat.pos_iff_ne_zero.mp h
  constructor
  · show pySliceLast n ctx <:+ ctx
    simp only [pySliceLast, if_neg hne]
    exact List.drop_suffix _ _
  · show (pySliceLast n ctx).length = min n ctx.length
    simp only [pySliceLast, if_neg hne, List.length_drop]
    omega

/-- Witness for C7: an 8-character buffer with threshold 3 truncates to
its 3-character tail. -/
theorem c7_compress_failure_witness :
    compressContext 3 ("abcdefgh".toList) none <:+ ("abcdefgh".toList) ∧
    (compressContext 3 ("abcdefgh".toList) none).length =
      min 3 ("abcdefgh".toList).length :=
  c7_compress_failure 3 ("abcdefgh".toList) (by decide)

/-- Counterexample for C7 as stated: with the compression threshold at
10000  and `maxContextChars` at 20000 (threshold < maximum, as enforced),
a 10500-character buffer whose compression generation fails is truncated
to 10000 characters — not to the configured maximum length, which would
have left all 10500 characters. -/
theorem c7_counterexample :
    (10000 : Nat) < 20000 ∧
    10000 < c7ctx.length ∧
    compressContext 10000 c7ctx none ≠ pySliceLast 20000 c7ctx := by
  have hc : c7ctx.length = 10500 := List.length_replicate 10500 'a'
  refine ⟨by norm_num, ?_, ?_⟩
  · rw [hc]; norm_num
  · intro h
    have e1 : (compressContext 10000 c7ctx none).length = 10000 := by
      show (pySliceLast 10000 c7ctx).length = 10000
      unfold pySliceLast
      rw [if_neg (by norm_num : ¬ (10000 : Nat) = 0), List.length_drop, hc]
    have e2 : (pySliceLast 20000 c7ctx).length = 10500 := by
      unfold pySliceLast
      rw [if_neg (by norm_num : ¬ (20000 : Nat) = 0), List.length_drop, hc]
    rw [h, e2] at e1
    norm_num at e1

/-- Claim C1: JSON repair applies its stages in order, stopping at the
first successful parse (a first-stage success is returned as is), and
degrades to no call rather than an error when no stage can repair a
fragment; concretely the unquoted-key input
`{name: "search", arguments: {query: "foo"}}` repairs to a call with name
`search` and argument `foo`, and the same input with full-width Japanese
quotation brackets around the values repairs to the same call. -/
theorem c1_json_repair :
    parseToolJson c1input1 = .ok (some (("search".toList), .str ("foo".toList))) ∧
    parseToolJson c1input2 = .ok (some (("search".toList), .str ("foo".toList))) ∧
    (∀ (raw : List Char) (v : JValue),
      loads (fixStage1 raw) = some v → fixJson raw = some v) ∧
    (∀ raw : List Char, fixJson raw = none → parseToolJson raw = .ok none) := by
  refine ⟨rfl, rfl, ?_, ?_⟩
  · intro raw v h
    simp only [fixJson, h]
  · intro raw h
    simp only [parseToolJson, h]

/-- Witness for C1: the first-stage-success rule applied to an already
valid fragment, and the no-call rule applied to an unrepairable one. -/
theorem c1_json_repair_witness :
    fixJson c1w1 = some c1w1val ∧ parseToolJson c1bad = .ok none :=
  ⟨c1_json_repair.2.2.1 c1w1 c1w1val rfl, c1_json_repair.2.2.2 c1bad rfl⟩

/-- Claim C6: for a successfully repaired call object with a truthy string
name, if `arguments` is an object its first key's value (in authored
order) becomes the call argument and every other key is discarded, and if
`arguments` is a JSON-encoded string it is first re-parsed and the same
first-key rule applies to the result. -/
theorem c6_argument_reduction :
    ∀ (raw : List Char) (kvs : List (List Char × JValue)) (nm : List Char),
      fixJson raw = some (.obj kvs) →
      dGet kvs ("name".toList) (.str []) = .str nm →
      nm ≠ [] →
      ((∀ (k : List Char) (v : JValue) (rest : List (List Char × JValue)),
          dGet kvs ("arguments".toList) (.obj []) = .obj ((k, v) :: rest) →
          parseToolJson raw = .ok (some (normalizeToolName nm, v))) ∧
       (∀ (s k : List Char) (v : JValue) (rest : List (List Char × JValue)),
          dGet kvs ("arguments".toList) (.obj []) = .str s →
          loads s = some (.obj ((k, v) :: rest)) →
          parseToolJson raw = .ok (some (normalizeToolName nm, v)))) := by
  intro raw kvs nm hfix hname hnm
  have htruthy : pyTruthy (.str nm) = true := by
    simp [pyTruthy, hnm]
  constructor
  · intro k v rest hargs
    simp only [parseToolJson, hfix, hname, htruthy, hargs, reduceArgs, if_true]
  · intro s k v rest hargs hload
    simp only [parseToolJson, hfix, hname, htruthy, hargs, hload, reduceArgs, if_true]

/-- Witness for C6: the two-key object `{"query": "foo", "extra": "bar"}`
reduces to `foo` with `extra` discarded, and the JSON-encoded string
`"{\"query\": \"zap\"}"` is re-parsed and reduces to `zap`. -/
theorem c6_argument_reduction_witness :
    parseToolJson c6input1 = .ok (some (normalizeToolName ("search".toList), .str ("foo".toList))) ∧
    parseToolJson c6input2 = .ok (some (normalizeToolName ("search".toList), .str ("zap".toList))) := by
  constructor
  · exact (c6_argument_reduction c6input1 c6kvs1 ("search".toList) rfl rfl
      (by decide)).1 ("query".toList) (.str ("foo".toList))
      [(("extra".toList), .str ("bar".toList))] rfl
  · exact (c6_argument_reduction c6input2 c6kvs2 ("search".toList) rfl rfl
      (by decide)).2 c6argstr ("query".toList) (.str ("zap".toList)) [] rfl rfl

/-- Claim C10: a candidate whose repair yields a non-object, or an object
with an absent or empty `name`, produces no call (`None`), and such a
candidate leaves the executed-call accumulator, the executor state and the
processing of the remaining candidates unchanged. -/
theorem c10_parse_failure_no_call :
    (∀ (raw : List Char) (v : JValue), fixJson raw = some v → isObjB v = false →
       parseToolJson raw = .ok none) ∧
    (∀ (raw : List Char) (kvs : List (List Char × JValue)),
       fixJson raw = some (.obj kvs) →
       kvs.find? (fun p => p.1 == ("name".toList)) = none →
       parseToolJson raw = .ok none) ∧
    (∀ (raw : List Char) (kvs : List (List Char × JValue)),
       fixJson raw = some (.obj kvs) →
       dGet kvs ("name".toList) (.str []) = .str [] →
       parseToolJson raw = .ok none) ∧
    (∀ (hasCli : Bool) (oracle : List Char → List Char) (s : EState)
       (acc : List ToolCall) (raw : List Char) (rest : List (List Char)),
       parseToolJson raw = .ok none →
       runJsonCalls hasCli oracle s acc (raw :: rest) =
         runJsonCalls hasCli oracle s acc rest) := by
  refine ⟨?_, ?_, ?_, ?_⟩
  · intro raw v hfix hv
    cases v with
    | obj kvs => simp [isObjB] at hv
    | null => simp only [parseToolJson, hfix]
    | bool b => simp only [parseToolJson, hfix]
    | int n => simp only [parseToolJson, hfix]
    | str s => simp only [parseToolJson, hfix]
    | arr xs => simp only [parseToolJson, hfix]
  · intro raw kvs hfix hfind
    simp only [parseToolJson, hfix, dGet, hfind, pyTruthy, List.isEmpty_nil,
      Bool.not_true, Bool.false_eq_true, if_false]
  · intro raw kvs hfix hget
    simp only [parseToolJson, hfix, hget, pyTruthy, List.isEmpty_nil,
      Bool.not_true, Bool.false_eq_true, if_false]
  · intro hasCli oracle s acc raw rest h
    simp only [runJsonCalls, h]

/-- Witness for C10: an array fragment, an object without `name` and an
object with an empty `name` each produce no call, and the array candidate
passes through the execution loop without any effect. -/
theorem c10_parse_failure_no_call_witness :
    parseToolJson c10arr = .ok none ∧
    parseToolJson c10noname = .ok none ∧
    parseToolJson c10empty = .ok none ∧
    runJsonCalls false nullOracle emptyEState [] [c10arr] =
      runJsonCalls false nullOracle emptyEState [] [] := by
  have h1 : parseToolJson c10arr = .ok none :=
    c10_parse_failure_no_call.1 c10arr (.arr [.int 1, .int 2]) rfl rfl
  refine ⟨h1, ?_, ?_, ?_⟩
  · exact c10_parse_failure_no_call.2.1 c10noname c10kvsNoname rfl rfl
  · exact c10_parse_failure_no_call.2.2.1 c10empty c10kvsEmpty rfl rfl
  · exact c10_parse_failure_no_call.2.2.2 false nullOracle emptyEState [] c10arr [] h1

/-- Claim C5: the no-opening-tag encoding (format 5) contributes extracted
calls only when the six other encodings produced no call at all in the
text: if they produced at least one call, the extraction result is exactly
their calls and every format-5 match is ignored; only when they produced
none does the format-5 pass determine the result. -/
theorem c5_format5_fallback :
    ∀ (hasCli : Bool) (oracle : List Char → List Char) (s : EState) (text : List Char),
      (∀ (calls : List ToolCall) (s1 : EState),
        processPhase16 hasCli oracle s (removeThink text) = .ok (calls, s1) →
        calls ≠ [] →
        processTools hasCli oracle s text = .ok (sanitizeForContext text, calls, s1)) ∧
      (∀ (s1 : EState) (calls2 : List ToolCall) (s2 : EState),
        processPhase16 hasCli oracle s (removeThink text) = .ok ([], s1) →
        runJsonCalls hasCli oracle s1 [] (findF5 (removeThink text)) = .ok (calls2, s2) →
        processTools hasCli oracle s text = .ok (sanitizeForContext text, calls2, s2)) := by
  intro hasCli oracle s text
  constructor
  · intro calls s1 h hne
    have hcalls : calls.isEmpty = false := by
      cases calls with
      | nil => exact absurd rfl hne
      | cons a l => rfl
    simp only [processTools, h, hcalls, Bind.bind, Except.bind, Bool.false_eq_true, if_false]
  · intro s1 calls2 s2 h h5
    simp only [processTools, h, h5, Bind.bind, Except.bind, List.isEmpty_nil, if_true]

/-- Witness for C5: in `c5text` the six primary encodings yield one search
call; the format-5 fragment — which on its own would yield a message call,
as `c5f5text` shows — is ignored, and the final result carries only the
search call. -/
theorem c5_format5_fallback_witness :
    processTools false nullOracle emptyEState c5text =
      .ok (sanitizeForContext c5text, c5calls, c5send) ∧
    findF5 (removeThink c5text) ≠ [] ∧
    runJsonCalls false nullOracle emptyEState [] (findF5 (removeThink c5text)) =
      .ok (c5f5calls, c5f5send) ∧
    processTools false nullOracle emptyEState c5f5text =
      .ok (sanitizeForContext c5f5text, c5f5calls, c5f5send) := by
  refine ⟨?_, by decide, rfl, ?_⟩
  · exact (c5_format5_fallback false nullOracle emptyEState c5text).1 c5calls c5send rfl
      (by intro h; cases h)
  · exact (c5_format5_fallback false nullOracle emptyEState c5f5text).2 emptyEState
      c5f5calls c5f5send rfl rfl

/-- A pattern that occurs nowhere has no last occurrence. -/
theorem lastOccur_eq_none_of_not_contains (pat : List Char) :
    ∀ t : List Char, containsSub pat t = false → lastOccur pat t = none := by
  intro t
  induction t with
  | nil =>
    intro h
    simp only [containsSub] at h
    simp [lastOccur, h]
  | cons c rest ih =>
    intro h
    simp only [containsSub, Bool.or_eq_false_iff] at h
    simp [lastOccur, ih h.2, h.1]

/-- Claim C8 (amended): the open-call detector reports an open call
whenever the fenced spelling ```` ```tool_call ```` appears without a
subsequent ```` ``` ```` fence terminator, provided none of the three
angle-bracket opening spellings appears anywhere in the text — the fenced
check is only reached in that case. -/
theorem c8_fenced_open :
    ∀ (text : List Char) (i : Nat),
      containsSub ("<tool_call>".toList) text = false →
      containsSub ("<function_calls>".toList) text = false →
      containsSub ("<function=".toList) text = false →
      lastOccur ("```tool_call".toList) text = some i →
      containsSub ("```".toList) (text.drop (i + 12)) = false →
      hasOpenToolTag text = true := by
  intro text i h1 h2 h3 h4 h5
  have l1 := lastOccur_eq_none_of_not_contains _ text h1
  have l2 := lastOccur_eq_none_of_not_contains _ text h2
  have l3 := lastOccur_eq_none_of_not_contains _ text h3
  have hopen : lastOpenIdx text = none := by
    simp only [lastOpenIdx, openTagList, List.foldl, l1, l2, l3]
  simp only [hasOpenToolTag, hopen, h4, h5, Bool.not_false]

/-- Witness for C8: an unterminated fenced opener in a text with no
angle-bracket tags is reported open. -/
theorem c8_fenced_open_witness : hasOpenToolTag c8wtext = true :=
  c8_fenced_open c8wtext 3 (by decide) (by decide) (by decide) (by decide) (by decide)

/-- Counterexample for C8 as stated: in
`<tool_call>x</tool_call>```tool_call {` the fenced opener (index 24) has
no fence terminator after it, yet the detector reports no open call,
because the closed angle-bracket spelling takes priority and the fenced
check is never reached. -/
theorem c8_counterexample :
    lastOccur ("```tool_call".toList) c8text = some 24 ∧
    containsSub ("```".toList) (c8text.drop (24 + 12)) = false ∧
    hasOpenToolTag c8text = false := by
  refine ⟨by decide, by decide, by decide⟩

/-- If a suffix of `t` starts with `pat`, then `pat` occurs in `t`. -/
theorem contains_of_suffix_startsWith {pat u t : List Char} (hsuf : u <:+ t)
    (h : startsWithL u pat = true) : containsSub pat t = true := by
  obtain ⟨w, rfl⟩ := hsuf
  induction w with
  | nil =>
    cases u with
    | nil => simpa [containsSub] using h
    | cons c r => simp [containsSub, h]
  | cons d w ih => simp [containsSub, ih]

/-- Contrapositive form: nothing in a pattern-free text starts with the
pattern. -/
theorem startsWith_false_of_not_contains {pat t u : List Char}
    (h : containsSub pat t = false) (hu : u <:+ t) : startsWithL u pat = false := by
  cases hs : startsWithL u pat with
  | false => rfl
  | true =>
    rw [contains_of_suffix_startsWith hu hs] at h
    exact Bool.noConfusion h

/-- Occurrence in a suffix gives occurrence in the whole text. -/
theorem contains_mono_suffix {pat u t : List Char} (hu : u <:+ t)
    (h : containsSub pat u = true) : containsSub pat t = true := by
  obtain ⟨w, rfl⟩ := hu
  induction w with
  | nil => simpa using h
  | cons d w ih => simp [containsSub, ih]

/-- A pattern that occurs nowhere splits nothing. -/
theorem splitFirst_eq_none (pat : List Char) :
    ∀ t : List Char, containsSub pat t = false → splitFirst pat t = none := by
  intro t
  induction t with
  | nil =>
    intro h
    simp only [containsSub] at h
    simp [splitFirst, h]
  | cons c rest ih =>
    intro h
    simp only [containsSub, Bool.or_eq_false_iff] at h
    simp [splitFirst, h.1, ih h.2]

/-- `str.replace` is the identity when the pattern does not occur. -/
theorem replaceAllF_id (pat rep : List Char) :
    ∀ (fuel : Nat) (t : List Char), containsSub pat t = false →
      replaceAllF pat rep fuel t = t := by
  intro fuel
  induction fuel with
  | zero => intro t _; cases t <;> rfl
  | succ n ih =>
    intro t h
    cases t with
    | nil => rfl
    | cons c rest =>
      simp only [containsSub, Bool.or_eq_false_iff] at h
      simp [replaceAllF, h.1, ih rest h.2]

theorem pyReplace_id (pat rep t : List Char) (h : containsSub pat t = false) :
    pyReplace pat rep t = t :=
  replaceAllF_id pat rep (t.length + 1) t h

/-- The lazy-pair removal is the identity when the opener does not occur. -/
theorem subLazyPair_id (openL closeL t : List Char) (h : containsSub openL t = false) :
    subLazyPair openL closeL t = t := by
  unfold subLazyPair
  simp [subLazyPairF, splitFirst_eq_none openL t h]

theorem subToEndAfter_id (lit t : List Char) (h : containsSub lit t = false) :
    subToEndAfter lit t = t := by
  simp [subToEndAfter, splitFirst_eq_none lit t h]

theorem subToolCallNoClose_id (t : List Char)
    (h : containsSub ("<tool_call>".toList) t = false) :
    subToolCallNoClose t = t := by
  unfold subToolCallNoClose
  simp only [subToolCallNoCloseF, splitFirst_eq_none _ t h]

/-- A scanner whose matcher fires on no suffix is the identity. -/
theorem scanRemove_id (matchAt : List Char → Option (List Char)) :
    ∀ (fuel : Nat) (t : List Char), (∀ u, u <:+ t → matchAt u = none) →
      scanRemove matchAt fuel t = t := by
  intro fuel
  induction fuel with
  | zero => intro t _; cases t <;> rfl
  | succ n ih =>
    intro t h
    cases t with
    | nil => rfl
    | cons c rest =>
      simp only [scanRemove, h (c :: rest) (List.suffix_refl _)]
      exact congrArg (c :: ·) (ih rest fun u hu => h u (hu.trans (List.suffix_cons c rest)))

theorem jsonTagMatchAt_eq_none {openL closeL u : List Char}
    (h : startsWithL u openL = false) : jsonTagMatchAt openL closeL u = none := by
  unfold jsonTagMatchAt
  rw [h]
  rfl

theorem matchFnEqAt_eq_none {u : List Char}
    (h : startsWithL u ("<function=".toList) = false) : matchFnEqAt u = none := by
  unfold matchFnEqAt
  rw [h]
  rfl

theorem matchFencedOpenBraceAt_eq_none {u : List Char}
    (h : startsWithL u ("```tool_call".toList) = false) :
    matchFencedOpenBraceAt u = none := by
  unfold matchFencedOpenBraceAt
  rw [h]
  rfl

theorem matchFencedBareAt_eq_none {u : List Char}
    (h : startsWithL u ("```tool_call".toList) = false) :
    matchFencedBareAt u = none := by
  unfold matchFencedBareAt
  rw [h]
  rfl

theorem matchArgKeyAt_eq_none {u : List Char}
    (h : startsWithL u ("<arg_key>".toList) = false) : matchArgKeyAt u = none := by
  unfold matchArgKeyAt
  rw [h]
  rfl

/-- A successful format-5 match ends at a `</tool_call>` literal, so the
literal occurs in the matched text. -/
theorem matchF5At_contains {u g rem : List Char}
    (h : matchF5At u = some (g, rem)) :
    containsSub ("</tool_call>".toList) u = true := by
  simp only [matchF5At] at h
  split at h
  · exact absurd h (by simp)
  · rename_i nm hfind
    split at h
    case _ t2 heq1 =>
      split at h
      case _ t3 heq2 =>
        split at h
        case isTrue hcond =>
          have su1 : skipWs (u.drop nm.length) <:+ u :=
            (List.dropWhile_suffix _).trans (List.drop_suffix _ _)
          have su2 : t2 <:+ u := by
            have h2 : ('{' :: t2) <:+ u := heq1 ▸ su1
            exact (List.suffix_cons '{' t2).trans h2
          have su3 : t3 <:+ u := by
            have hdrop := List.drop_suffix
              (t2.takeWhile (fun c => c != '}')).length t2
            rw [heq2] at hdrop
            exact ((List.suffix_cons '}' t3).trans hdrop).trans su2
          have su4 : skipWs t3 <:+ u := (List.dropWhile_suffix _).trans su3
          exact contains_of_suffix_startsWith su4 hcond
        case isFalse => exact absurd h (by simp)
      case _ => exact absurd h (by simp)
    case _ => exact absurd h (by simp)

/-- Format-5 matches fire nowhere in a text without `</tool_call>`. -/
theorem matchF5At_eq_none {t u : List Char}
    (h : containsSub ("</tool_call>".toList) t = false) (hu : u <:+ t) :
    matchF5At u = none := by
  cases hm : matchF5At u with
  | none => rfl
  | some p =>
    obtain ⟨g, rem⟩ := p
    have hc : containsSub ("</tool_call>".toList) u = true := matchF5At_contains hm
    rw [contains_mono_suffix hu hc] at h
    exact Bool.noConfusion h

/-- Claim C9 (amended): sanitizing a text free of any recognized call
markup and of think-blocks performs exactly the newline-run collapsing
(runs of three or more newline characters become two) followed by the
final whitespace strip of both ends — and nothing else. -/
theorem c9_sanitize_identity :
    ∀ text : List Char, cleanText text = true →
      sanitizeForContext text = pyStrip (collapseNl text) := by
  intro t h
  simp only [cleanText, markerList, List.all_cons, List.all_nil, Bool.and_eq_true,
    Bool.not_eq_true'] at h
  obtain ⟨h1, h2, h3, h4, h5, h6, h7, h8, h9, h10, h11, h12, h13, h14, h15, -⟩ := h
  simp only [sanitizeForContext]
  rw [subLazyPair_id _ _ _ h1]
  rw [subToEndAfter_id _ _ h1]
  rw [pyReplace_id _ _ _ h2]
  rw [subLazyPair_id _ _ _ h3]
  rw [subLazyPair_id _ _ _ h3]
  rw [scanRemove_id (fun t2 => (fun p => p.2) <$>
      jsonTagMatchAt ("```tool_call".toList) ("```".toList) t2) _ _ (fun u hu => by
    show (fun p => p.2) <$>
      jsonTagMatchAt ("```tool_call".toList) ("```".toList) u = none
    rw [jsonTagMatchAt_eq_none (startsWith_false_of_not_contains h6 hu)]
    rfl)]
  rw [subLazyPair_id _ _ _ h7]
  rw [subLazyPair_id _ _ _ h7]
  rw [scanRemove_id matchFnEqAt _ _ (fun u hu =>
    matchFnEqAt_eq_none (startsWith_false_of_not_contains h10 hu))]
  rw [scanRemove_id (fun t2 => (fun p => p.2) <$> matchF5At t2) _ _ (fun u hu => by
    show (fun p => p.2) <$> matchF5At u = none
    rw [matchF5At_eq_none h4 hu]
    rfl)]
  rw [scanRemove_id matchFencedOpenBraceAt _ _ (fun u hu =>
    matchFencedOpenBraceAt_eq_none (startsWith_false_of_not_contains h6 hu))]
  rw [scanRemove_id matchFencedBareAt _ _ (fun u hu =>
    matchFencedBareAt_eq_none (startsWith_false_of_not_contains h6 hu))]
  rw [subToEndAfter_id _ _ h7]
  rw [subToolCallNoClose_id _ h3]
  rw [pyReplace_id _ _ _ h4]
  rw [pyReplace_id _ _ _ h5]
  rw [pyReplace_id _ _ _ h9]
  rw [pyReplace_id _ _ _ h15]
  rw [scanRemove_id matchArgKeyAt _ _ (fun u hu =>
    matchArgKeyAt_eq_none (startsWith_false_of_not_contains h12 hu))]

/-- Witness for C9: a markup-free text with a four-newline run and a
trailing space sanitizes to exactly its collapsed-and-stripped form. -/
theorem c9_sanitize_identity_witness :
    sanitizeForContext c9wtext = pyStrip (collapseNl c9wtext) :=
  c9_sanitize_identity c9wtext (by decide)

/-- Counterexample for C9 as stated: `"a "` is free of call markup and
think-blocks and contains no run of blank lines to collapse, yet
sanitization does not return it unchanged — the final `.strip()` removes
the trailing space. -/
theorem c9_counterexample :
    cleanText c9cex = true ∧ collapseNl c9cex = c9cex ∧
    sanitizeForContext c9cex ≠ c9cex := by
  refine ⟨by decide, rfl, ?_⟩
  intro hcontra
  have he : sanitizeForContext c9cex = ("a".toList) := rfl
  rw [he] at hcontra
  exact (by decide : ¬ ("a".toList = ("a ".toList))) hcontra

end Epos
